import Mathlib

/-!
Verification of the jscpu virtual CPU against its design document.

This file shallowly embeds the interpreter of `src/unnamed/part_000` (the
full variant of `src/jscpu.js`, with the jump/compare instructions and the
lower-case dispatch table).  JavaScript numbers occurring in this program are
always integers or NaN — every register starts at the integer 0 and is only
ever written with `parseInt` results, 0/1 flags, sums and differences of such
values, so `Math.floor` is the identity on every value that actually arises —
hence numbers are modelled as `Option Int`, with `none` standing for NaN.
Thrown JavaScript exceptions leave the mutated `cpu.registers` object behind,
so every fallible operation returns `Except (CpuError × RegFile) _`, the error
case carrying the register file exactly as it stood when the throw happened.
-/

/-- JavaScript number as it occurs in this program: an integer or NaN. -/
abbrev JsNum := Option Int

/-- JavaScript `+` on the numbers occurring here; NaN propagates. -/
def jadd : JsNum → JsNum → JsNum
  | some a, some b => some (a + b)
  | _, _ => none

/-- JavaScript `-` on the numbers occurring here; NaN propagates. -/
def jsub : JsNum → JsNum → JsNum
  | some a, some b => some (a - b)
  | _, _ => none

/-- JavaScript `<`: every comparison with NaN is false. -/
def jlt : JsNum → JsNum → Bool
  | some a, some b => decide (a < b)
  | _, _ => false

/-- JavaScript `>`: every comparison with NaN is false. -/
def jgt : JsNum → JsNum → Bool
  | some a, some b => decide (b < a)
  | _, _ => false

/-- JavaScript `>=`: every comparison with NaN is false. -/
def jge : JsNum → JsNum → Bool
  | some a, some b => decide (b ≤ a)
  | _, _ => false

/-- JavaScript `===` on numbers: `NaN === x` is always false. -/
def jeq : JsNum → JsNum → Bool
  | some a, some b => a == b
  | _, _ => false

/-- ASCII whitespace recognised by the JavaScript string functions used here. -/
def isJsWs (c : Char) : Bool :=
  c == ' ' || c == '\t' || c == '\n' || c == '\r' || c == Char.ofNat 11 || c == Char.ofNat 12

/-- JavaScript `String.prototype.trim` (ASCII whitespace). -/
def jsTrim (s : String) : String :=
  String.mk (((s.data.dropWhile isJsWs).reverse.dropWhile isJsWs).reverse)

/-- Core of JavaScript `String.prototype.split` with a single-character
separator, on character lists.  Mirrors JS behaviour: the empty string splits
to `[""]`, and empty fields between adjacent separators are kept. -/
def splitOnCharList (sep : Char) : List Char → List (List Char)
  | [] => [[]]
  | c :: cs =>
    let r := splitOnCharList sep cs
    if c = sep then [] :: r
    else
      match r with
      | [] => [[c]]
      | h :: t => (c :: h) :: t

/-- JavaScript `s.split(sep)` for a one-character separator. -/
def jsSplit (s : String) (sep : Char) : List String :=
  (splitOnCharList sep s.data).map String.mk

/-- Value of a list of decimal digit characters. -/
def decDigitsVal (ds : List Char) : Nat :=
  ds.foldl (fun a c => a * 10 + (c.toNat - 48)) 0

/-- Hexadecimal digit test, for the `0x` branch of `parseInt`. -/
def isHexDigitCh (c : Char) : Bool :=
  c.isDigit || (decide ('a' ≤ c) && decide (c ≤ 'f')) || (decide ('A' ≤ c) && decide (c ≤ 'F'))

/-- Value of one hexadecimal digit character. -/
def hexDigitVal (c : Char) : Nat :=
  if c.isDigit then c.toNat - 48
  else if decide ('a' ≤ c) && decide (c ≤ 'f') then c.toNat - 87
  else c.toNat - 55

/-- Digits part of JavaScript `parseInt` after sign handling: a `0x`/`0X`
prefix switches to hexadecimal, otherwise the longest leading run of decimal
digits is taken; no digits at all gives NaN. -/
def jsParseIntFrom (sign : Int) (cs : List Char) : JsNum :=
  match cs with
  | '0' :: 'x' :: rest =>
    let ds := rest.takeWhile isHexDigitCh
    if ds.isEmpty then none
    else some (sign * (ds.foldl (fun a c => a * 16 + hexDigitVal c) 0 : Nat))
  | '0' :: 'X' :: rest =>
    let ds := rest.takeWhile isHexDigitCh
    if ds.isEmpty then none
    else some (sign * (ds.foldl (fun a c => a * 16 + hexDigitVal c) 0 : Nat))
  | _ =>
    let ds := cs.takeWhile Char.isDigit
    if ds.isEmpty then none else some (sign * (decDigitsVal ds : Nat))

/-- JavaScript `parseInt(s)` (radix argument omitted, as in the source). -/
def jsParseInt (s : String) : JsNum :=
  match s.data.dropWhile isJsWs with
  | '-' :: rest => jsParseIntFrom (-1) rest
  | '+' :: rest => jsParseIntFrom 1 rest
  | cs => jsParseIntFrom 1 cs

/-- The register bank created by `cpu.reset`: the fixed object with keys
r0, r1, s, ovfl, udfl, pc. -/
structure RegFile where
  r0 : JsNum
  r1 : JsNum
  s : JsNum
  ovfl : JsNum
  udfl : JsNum
  pc : JsNum
deriving DecidableEq, Repr

/-- Property lookup `cpu.registers[name]`; `none` plays the role of the
JavaScript `undefined` for a key that is not in the object. -/
def RegFile.get? (r : RegFile) (name : String) : Option JsNum :=
  if name = "r0" then some r.r0
  else if name = "r1" then some r.r1
  else if name = "s" then some r.s
  else if name = "ovfl" then some r.ovfl
  else if name = "udfl" then some r.udfl
  else if name = "pc" then some r.pc
  else none

/-- Property write `cpu.registers[name] = v`; `none` when the key is not one
of the six fixed register names. -/
def RegFile.set? (r : RegFile) (name : String) (v : JsNum) : Option RegFile :=
  if name = "r0" then some { r with r0 := v }
  else if name = "r1" then some { r with r1 := v }
  else if name = "s" then some { r with s := v }
  else if name = "ovfl" then some { r with ovfl := v }
  else if name = "udfl" then some { r with udfl := v }
  else if name = "pc" then some { r with pc := v }
  else none

/-- `cpu.registers.hasOwnProperty(name)`: the key set of the register object
is fixed by `cpu.reset`. -/
def validRegister (name : String) : Bool :=
  name == "r0" || name == "r1" || name == "s" || name == "ovfl" || name == "udfl" || name == "pc"

/-- The register file as `cpu.reset` leaves it: every register holds 0. -/
def resetRegisters : RegFile :=
  { r0 := some 0, r1 := some 0, s := some 0, ovfl := some 0, udfl := some 0, pc := some 0 }

/-- The untyped strings thrown by the interpreter, as a structured taxonomy.
Each variant records exactly the data interpolated into the corresponding
JavaScript message. -/
inductive CpuError where
  /-- `'No assembly source received'` in `cpu.init` (its guard is dead code). -/
  | emptySource : CpuError
  /-- `'Syntax error, line PC, expected at least one space'` in `cpu.exec`. -/
  | missingSpace (pc : JsNum) : CpuError
  /-- `'Syntax error, line PC, unknown function INST'` in `cpu.exec`. -/
  | unknownOpcode (inst : String) (pc : JsNum) : CpuError
  /-- `'Syntax error, no arguments provided for function INST on line PC'`. -/
  | noArguments (inst : String) (pc : JsNum) : CpuError
  /-- `'Syntax error, invalid arg count on line PC'` in `cpu.parseArgs`. -/
  | arity (pc : JsNum) : CpuError
  /-- `'Syntax error, unknown register NAME called on line PC'`. -/
  | unknownRegister (name : String) (pc : JsNum) : CpuError
  /-- `'Syntax error: jmp called to address that is out of bounds: TARGET'`. -/
  | outOfBoundsJump (target : JsNum) : CpuError
  /-- The JavaScript TypeError raised when a value that is not a function is
  called — `cpu.instructionSet` maps `cgt`/`clt` to the never-defined
  `cpu.cgt`/`cpu.clt` — or when an undefined fetched line is used. -/
  | typeError (what : String) : CpuError
deriving DecidableEq, Repr

/-- The CPU instance: instruction list, its recorded length, the nominal
register width and the register bank. -/
structure CPU where
  inst : List String
  pEnd : Nat
  regSize : Int
  regs : RegFile
deriving DecidableEq, Repr

/-- State of `new jscpu()` just before the first `init` (registers shown with
their reset values, which `init` installs before anything reads them). -/
def CPU.initial : CPU :=
  { inst := [], pEnd := 0, regSize := 256, regs := resetRegisters }

/-- `cpu.reset`: reinstalls `regSize` and the zeroed register object.  The
dispatch table it also rebuilds is constant and is modelled by
`instHasKey`/`CPU.dispatch` below.  Note that `cpu.inst` and `cpu.pEnd` are
not touched. -/
def CPU.reset (c : CPU) : CPU :=
  { c with regSize := 256, regs := resetRegisters }

/-- `cpu.getRegisterValue`: validate the name, then read. -/
def getRegisterValue (r : RegFile) (name : String) : Except CpuError JsNum :=
  match r.get? name with
  | some v => Except.ok v
  | none => Except.error (CpuError.unknownRegister name r.pc)

/-- `cpu.setRegisterValue`: validate the name, then overwrite — no clamping. -/
def setRegisterValue (r : RegFile) (name : String) (v : JsNum) : Except CpuError RegFile :=
  match r.set? name v with
  | some r' => Except.ok r'
  | none => Except.error (CpuError.unknownRegister name r.pc)

/-- `cpu.parseArgs(args, ind, false, len)` — raw mode: split on comma, check
the token count, return the requested token verbatim. -/
def parseArgsRaw (curPc : JsNum) (args : String) (ind : Nat) (len : Nat) : Except CpuError String :=
  let ara := jsSplit args ','
  if ara.length < len then Except.error (CpuError.arity curPc)
  else Except.ok (ara.getD ind "")

/-- `cpu.parseArgs(args, ind)` / `(args, ind, true, len)` — resolved mode: a
leading `#` makes the remainder a `parseInt` immediate, anything else is read
as a register name through `getRegisterValue`. -/
def parseArgsVal (regs : RegFile) (args : String) (ind : Nat) (len : Nat) : Except CpuError JsNum :=
  let ara := jsSplit args ','
  if ara.length < len then Except.error (CpuError.arity regs.pc)
  else
    let rv := ara.getD ind ""
    match rv.data with
    | '#' :: rest => Except.ok (jsParseInt (String.mk rest))
    | _ => getRegisterValue regs rv

/-- `cpu.add`.  The source computes `res`, conditionally clamps it and raises
the overflow flag, then performs the single destination store; the store is
written once per branch here, in the same order as the source effects. -/
def CPU.add (c : CPU) (arg : String) : Except (CpuError × RegFile) CPU :=
  match parseArgsVal c.regs arg 0 2 with
  | Except.error e => Except.error (e, c.regs)
  | Except.ok ad =>
    match parseArgsVal c.regs arg 1 2 with
    | Except.error e => Except.error (e, c.regs)
    | Except.ok cv =>
      match parseArgsRaw c.regs.pc arg 1 2 with
      | Except.error e => Except.error (e, c.regs)
      | Except.ok dr =>
        let res := jadd ad cv
        if jge res (some c.regSize) then
          match setRegisterValue c.regs "ovfl" (some 1) with
          | Except.error e => Except.error (e, c.regs)
          | Except.ok r1 =>
            match setRegisterValue r1 dr (some (c.regSize - 1)) with
            | Except.error e => Except.error (e, r1)
            | Except.ok r2 => Except.ok { c with regs := r2 }
        else
          match setRegisterValue c.regs dr res with
          | Except.error e => Except.error (e, c.regs)
          | Except.ok r2 => Except.ok { c with regs := r2 }

/-- `cpu.mov`: raw destination, resolved value, unconditional store. -/
def CPU.mov (c : CPU) (arg : String) : Except (CpuError × RegFile) CPU :=
  match parseArgsRaw c.regs.pc arg 0 2 with
  | Except.error e => Except.error (e, c.regs)
  | Except.ok dr =>
    match parseArgsVal c.regs arg 1 2 with
    | Except.error e => Except.error (e, c.regs)
    | Except.ok dv =>
      match setRegisterValue c.regs dr dv with
      | Except.error e => Except.error (e, c.regs)
      | Except.ok r2 => Except.ok { c with regs := r2 }

/-- `cpu.sub`, mirror image of `cpu.add` with the underflow clamp. -/
def CPU.sub (c : CPU) (arg : String) : Except (CpuError × RegFile) CPU :=
  match parseArgsVal c.regs arg 0 2 with
  | Except.error e => Except.error (e, c.regs)
  | Except.ok sd =>
    match parseArgsVal c.regs arg 1 2 with
    | Except.error e => Except.error (e, c.regs)
    | Except.ok cv =>
      match parseArgsRaw c.regs.pc arg 1 2 with
      | Except.error e => Except.error (e, c.regs)
      | Except.ok dr =>
        let res := jsub cv sd
        if jlt res (some 0) then
          match setRegisterValue c.regs "udfl" (some 1) with
          | Except.error e => Except.error (e, c.regs)
          | Except.ok r1 =>
            match setRegisterValue r1 dr (some 0) with
            | Except.error e => Except.error (e, r1)
            | Except.ok r2 => Except.ok { c with regs := r2 }
        else
          match setRegisterValue c.regs dr res with
          | Except.error e => Except.error (e, c.regs)
          | Except.ok r2 => Except.ok { c with regs := r2 }

/-- `cpu.jmp`: resolve the single-token target, bounds-check it against
`[0, pEnd]`, and set `pc` to the target less one (the main loop reincrements
it after the handler returns). -/
def CPU.jmp (c : CPU) (arg : String) : Except (CpuError × RegFile) CPU :=
  match parseArgsVal c.regs arg 0 1 with
  | Except.error e => Except.error (e, c.regs)
  | Except.ok jd =>
    if jlt jd (some 0) || jgt jd (some (c.pEnd : Int)) then
      Except.error (CpuError.outOfBoundsJump jd, c.regs)
    else
      Except.ok { c with regs := { c.regs with pc := jsub jd (some 1) } }

/-- `cpu.cmp`: strict equality of the two resolved values into `s`. -/
def CPU.cmp (c : CPU) (arg : String) : Except (CpuError × RegFile) CPU :=
  match parseArgsVal c.regs arg 0 2 with
  | Except.error e => Except.error (e, c.regs)
  | Except.ok fv =>
    match parseArgsVal c.regs arg 1 2 with
    | Except.error e => Except.error (e, c.regs)
    | Except.ok sv =>
      match setRegisterValue c.regs "s" (some (if jeq fv sv then 1 else 0)) with
      | Except.error e => Except.error (e, c.regs)
      | Except.ok r2 => Except.ok { c with regs := r2 }

/-- `cpu.jnz`: return unchanged when `s === 0`, otherwise delegate to `jmp`. -/
def CPU.jnz (c : CPU) (arg : String) : Except (CpuError × RegFile) CPU :=
  match getRegisterValue c.regs "s" with
  | Except.error e => Except.error (e, c.regs)
  | Except.ok r =>
    if jeq r (some 0) then Except.ok c
    else CPU.jmp c arg

/-- `cpu.jze`: return unchanged when `s !== 0`, otherwise delegate to `jmp`. -/
def CPU.jze (c : CPU) (arg : String) : Except (CpuError × RegFile) CPU :=
  match getRegisterValue c.regs "s" with
  | Except.error e => Except.error (e, c.regs)
  | Except.ok r =>
    if jeq r (some 0) = false then Except.ok c
    else CPU.jmp c arg

/-- `cpu.instructionSet.hasOwnProperty(inst)`: the keys installed by
`cpu.reset` are add, sub, mov, jmp, cmp, cgt, clt, jnz, jze. -/
def instHasKey (inst : String) : Bool :=
  inst == "add" || inst == "sub" || inst == "mov" || inst == "jmp" || inst == "cmp" ||
    inst == "cgt" || inst == "clt" || inst == "jnz" || inst == "jze"

/-- `cpu.instructionSet[inst](args)`.  The `cgt`/`clt` entries point at
`cpu.cgt`/`cpu.clt`, which the source never defines, so invoking them is a
JavaScript TypeError; the default branch is unreachable after the
`hasOwnProperty` check in `cpu.exec`. -/
def CPU.dispatch (c : CPU) (inst : String) (args : String) : Except (CpuError × RegFile) CPU :=
  if inst = "add" then c.add args
  else if inst = "sub" then c.sub args
  else if inst = "mov" then c.mov args
  else if inst = "jmp" then c.jmp args
  else if inst = "cmp" then c.cmp args
  else if inst = "jnz" then c.jnz args
  else if inst = "jze" then c.jze args
  else if inst = "cgt" then Except.error (CpuError.typeError inst, c.regs)
  else if inst = "clt" then Except.error (CpuError.typeError inst, c.regs)
  else Except.error (CpuError.unknownOpcode inst c.regs.pc, c.regs)

/-- `cpu.exec(line)`: split on single spaces, demand a second field, check the
opcode key, trim the second field, demand it nonempty, run the handler, then
unconditionally increment `pc`. -/
def CPU.exec (c : CPU) (line : String) : Except (CpuError × RegFile) CPU :=
  let abf := jsSplit line ' '
  if abf.length < 2 then Except.error (CpuError.missingSpace c.regs.pc, c.regs)
  else
    let inst := abf.getD 0 ""
    if instHasKey inst = false then
      Except.error (CpuError.unknownOpcode inst c.regs.pc, c.regs)
    else
      let args := jsTrim (abf.getD 1 "")
      if args = "" then Except.error (CpuError.noArguments inst c.regs.pc, c.regs)
      else
        match c.dispatch inst args with
        | Except.error p => Except.error p
        | Except.ok c' =>
          Except.ok { c' with regs := { c'.regs with pc := jadd c'.regs.pc (some 1) } }

/-- `cpu.inst[cpu.registers.pc]`: `none` is the JavaScript `undefined` for an
out-of-range or NaN index. -/
def fetchInst (c : CPU) : Option String :=
  match c.regs.pc with
  | none => none
  | some p => if p < 0 then none else c.inst.get? p.toNat

/-- Outcome of running the main loop: normal termination, a thrown error with
the registers as they stood at the throw, or fuel exhaustion (the source loop
has no bound; fuel only makes the model total). -/
inductive RunResult where
  | halted (c : CPU) : RunResult
  | fault (e : CpuError) (regs : RegFile) : RunResult
  | timeout (c : CPU) : RunResult
deriving DecidableEq, Repr

/-- `cpu.main`: run `exec` on the fetched line while `pc < pEnd`.  Executing
an `undefined` fetched line would be a TypeError in JavaScript
(`line.split` on `undefined`). -/
def CPU.main : Nat → CPU → RunResult
  | 0, c => RunResult.timeout c
  | Nat.succ fuel, c =>
    if jlt c.regs.pc (some (c.pEnd : Int)) then
      match fetchInst c with
      | none => RunResult.fault (CpuError.typeError "fetch") c.regs
      | some line =>
        match c.exec line with
        | Except.error p => RunResult.fault p.1 p.2
        | Except.ok c' => CPU.main fuel c'
    else RunResult.halted c

/-- The lines `cpu.init` pushes for a source text: split on newline, trim each
line, drop the blank ones, keep the order. -/
def parsedLines (asm : String) : List String :=
  ((jsSplit asm '\n').map jsTrim).filter (fun l => l != "")

/-- Parsing half of `cpu.init`: reset, split, the (dead) empty-source guard,
then push each non-blank trimmed line onto the existing `cpu.inst` — the list
is never cleared — and record `pEnd`. -/
def CPU.load (c : CPU) (asm : String) : Except CpuError CPU :=
  let c' := c.reset
  if (jsSplit asm '\n').length < 1 then Except.error CpuError.emptySource
  else
    let newInst := c'.inst ++ parsedLines asm
    Except.ok { c' with inst := newInst, pEnd := newInst.length }

/-- `cpu.init(asm)`: parse, then hand control to `cpu.main`. -/
def CPU.init (c : CPU) (asm : String) (fuel : Nat) : RunResult :=
  match c.load asm with
  | Except.error e => RunResult.fault e c.reset.regs
  | Except.ok c' => CPU.main fuel c'

/-- Reading of §4.4 step 2 of the spec: the operand text is everything on the
line after the FIRST space.  Used to compare the spec's description of the
split with what `cpu.exec` actually does. -/
def specOperandText (line : String) : String :=
  String.mk ((line.data.dropWhile (fun c => c != ' ')).drop 1)

/-- Error kinds the spec's taxonomy groups as `MissingOperandError`: no space
on the line, or operand text empty after trimming. -/
def CpuError.missingOperandKind : CpuError → Bool
  | CpuError.missingSpace _ => true
  | CpuError.noArguments _ _ => true
  | _ => false

/-- Error kind corresponding to the spec's `UnknownOpcodeError`. -/
def CpuError.unknownOpcodeKind : CpuError → Bool
  | CpuError.unknownOpcode _ _ => true
  | _ => false

/-- Shape of any error escaping an instruction handler: its kind is one of
arity / unknown register / out-of-bounds jump / TypeError; an unknown-register
error carries the pre-instruction `pc`, and the register file it leaves
behind is the pre-instruction one except possibly for an already-raised
`ovfl` (in `add`) or `udfl` (in `sub`) flag. -/
def handlerErrShape (c : CPU) (e : CpuError) (r : RegFile) : Prop :=
  (e = CpuError.arity c.regs.pc ∧ r = c.regs) ∨
  (∃ n, e = CpuError.unknownRegister n c.regs.pc ∧
    (r = c.regs ∨ r = { c.regs with ovfl := some 1 } ∨ r = { c.regs with udfl := some 1 })) ∨
  (∃ t, e = CpuError.outOfBoundsJump t ∧ r = c.regs) ∨
  (∃ w, e = CpuError.typeError w ∧ r = c.regs)

/-- Concrete one-instruction program used to witness C4. -/
def cpuC4 : CPU := { inst := ["jmp #1"], pEnd := 1, regSize := 256, regs := resetRegisters }

/-- Concrete state used to witness C2: `r0` holds 100. -/
def cpuC2 : CPU := { CPU.initial with regs := { resetRegisters with r0 := some 100 } }

/-- Concrete state used to witness C3: `r1` holds 10. -/
def cpuC3 : CPU := { CPU.initial with regs := { resetRegisters with r1 := some 10 } }

example : jsSplit "" '\n' = [""] := by decide
example : jsSplit "a\nb" '\n' = ["a", "b"] := by decide
example : jsSplit "mov  r0,#1" ' ' = ["mov", "", "r0,#1"] := by decide
example : jsParseInt "300" = some 300 := by decide
example : jsParseInt "-5" = some (-5) := by decide
example : jsParseInt "abc" = none := by decide
example : jsTrim "  r0,#1 " = "r0,#1" := by decide

/-! ### Basic facts about the embedding -/

lemma jeq_some_iff (x : JsNum) (v : Int) : jeq x (some v) = true ↔ x = some v := by
  cases x <;> simp [jeq]

lemma jge_some_iff (a b : Int) : jge (some a) (some b) = true ↔ b ≤ a := by
  simp [jge]

lemma jlt_some_iff (a b : Int) : jlt (some a) (some b) = true ↔ a < b := by
  simp [jlt]

lemma jgt_some_iff (a b : Int) : jgt (some a) (some b) = true ↔ b < a := by
  simp [jgt]

lemma validRegister_cases {x : String} (h : validRegister x = true) :
    x = "r0" ∨ x = "r1" ∨ x = "s" ∨ x = "ovfl" ∨ x = "udfl" ∨ x = "pc" := by
  simp only [validRegister, Bool.or_eq_true, beq_iff_eq] at h
  tauto

lemma get_r0 (r : RegFile) : RegFile.get? r "r0" = some r.r0 := rfl
lemma get_r1 (r : RegFile) : RegFile.get? r "r1" = some r.r1 := rfl
lemma get_s (r : RegFile) : RegFile.get? r "s" = some r.s := rfl
lemma get_ovfl (r : RegFile) : RegFile.get? r "ovfl" = some r.ovfl := rfl
lemma get_udfl (r : RegFile) : RegFile.get? r "udfl" = some r.udfl := rfl
lemma get_pc (r : RegFile) : RegFile.get? r "pc" = some r.pc := rfl

lemma setReg_r0 (r : RegFile) (v : JsNum) :
    setRegisterValue r "r0" v = Except.ok { r with r0 := v } := rfl
lemma setReg_r1 (r : RegFile) (v : JsNum) :
    setRegisterValue r "r1" v = Except.ok { r with r1 := v } := rfl
lemma setReg_s (r : RegFile) (v : JsNum) :
    setRegisterValue r "s" v = Except.ok { r with s := v } := rfl
lemma setReg_ovfl (r : RegFile) (v : JsNum) :
    setRegisterValue r "ovfl" v = Except.ok { r with ovfl := v } := rfl
lemma setReg_udfl (r : RegFile) (v : JsNum) :
    setRegisterValue r "udfl" v = Except.ok { r with udfl := v } := rfl
lemma setReg_pc (r : RegFile) (v : JsNum) :
    setRegisterValue r "pc" v = Except.ok { r with pc := v } := rfl

lemma getReg_s (r : RegFile) : getRegisterValue r "s" = Except.ok r.s := rfl

/-- A validated `set` succeeds, stores the value verbatim at the destination,
preserves every other name and never touches `pc` unless `pc` is the
destination. -/
lemma setRegisterValue_spec (r : RegFile) (dr : String) (v : JsNum)
    (h : validRegister dr = true) :
    ∃ r', setRegisterValue r dr v = Except.ok r' ∧
      RegFile.get? r' dr = some v ∧
      (∀ n, n ≠ dr → RegFile.get? r' n = RegFile.get? r n) := by
  rcases validRegister_cases h with h' | h' | h' | h' | h' | h' <;> subst h'
  · exact ⟨_, setReg_r0 r v, rfl, fun n hn => by simp [RegFile.get?, hn]⟩
  · exact ⟨_, setReg_r1 r v, rfl, fun n hn => by simp [RegFile.get?, hn]⟩
  · exact ⟨_, setReg_s r v, rfl, fun n hn => by simp [RegFile.get?, hn]⟩
  · exact ⟨_, setReg_ovfl r v, rfl, fun n hn => by simp [RegFile.get?, hn]⟩
  · exact ⟨_, setReg_udfl r v, rfl, fun n hn => by simp [RegFile.get?, hn]⟩
  · exact ⟨_, setReg_pc r v, rfl, fun n hn => by simp [RegFile.get?, hn]⟩

lemma splitOnCharList_ne_nil (sep : Char) (cs : List Char) : splitOnCharList sep cs ≠ [] := by
  induction cs with
  | nil => simp [splitOnCharList]
  | cons c cs ih =>
    simp only [splitOnCharList]
    split
    · simp
    · split <;> simp

lemma jsSplit_length_pos (s : String) (sep : Char) : 0 < (jsSplit s sep).length := by
  unfold jsSplit
  rw [List.length_map]
  cases hcs : splitOnCharList sep s.data with
  | nil => exact absurd hcs (splitOnCharList_ne_nil sep s.data)
  | cons h t => simp

/-- The loader never fails: the `rb.length < 1` guard in `cpu.init` is dead
code, so `load` always resets the registers and appends the parsed lines to
the existing instruction list. -/
lemma load_eq (c : CPU) (asm : String) :
    CPU.load c asm = Except.ok
      { inst := c.inst ++ parsedLines asm, pEnd := (c.inst ++ parsedLines asm).length,
        regSize := 256, regs := resetRegisters } := by
  have hlen : ¬ (jsSplit asm '\n').length < 1 := by
    have := jsSplit_length_pos asm '\n'
    omega
  simp only [CPU.load, CPU.reset, if_neg hlen]

/-! ### Classification of the errors a handler can produce -/

lemma getRegisterValue_error {r : RegFile} {n : String} {e : CpuError}
    (h : getRegisterValue r n = Except.error e) : e = CpuError.unknownRegister n r.pc := by
  unfold getRegisterValue at h
  split at h
  · simp at h
  · simp only [Except.error.injEq] at h
    exact h.symm

lemma setRegisterValue_error {r : RegFile} {n : String} {v : JsNum} {e : CpuError}
    (h : setRegisterValue r n v = Except.error e) : e = CpuError.unknownRegister n r.pc := by
  unfold setRegisterValue at h
  split at h
  · simp at h
  · simp only [Except.error.injEq] at h
    exact h.symm

lemma parseArgsRaw_error {curPc : JsNum} {args : String} {ind len : Nat} {e : CpuError}
    (h : parseArgsRaw curPc args ind len = Except.error e) : e = CpuError.arity curPc := by
  simp only [parseArgsRaw] at h
  split at h
  · simp only [Except.error.injEq] at h
    exact h.symm
  · simp at h

lemma parseArgsVal_error {regs : RegFile} {args : String} {ind len : Nat} {e : CpuError}
    (h : parseArgsVal regs args ind len = Except.error e) :
    e = CpuError.arity regs.pc ∨ ∃ n, e = CpuError.unknownRegister n regs.pc := by
  simp only [parseArgsVal] at h
  split at h
  · simp only [Except.error.injEq] at h
    exact Or.inl h.symm
  · split at h
    · simp at h
    · exact Or.inr ⟨_, getRegisterValue_error h⟩

lemma add_error_shape {c : CPU} {arg : String} {e : CpuError} {r : RegFile}
    (h : CPU.add c arg = Except.error (e, r)) : handlerErrShape c e r := by
  simp only [CPU.add] at h
  split at h
  next e1 heq =>
    simp only [Except.error.injEq, Prod.mk.injEq] at h
    obtain ⟨he, hr⟩ := h
    subst he
    subst hr
    rcases parseArgsVal_error heq with h1 | ⟨n, h1⟩
    · exact Or.inl ⟨h1, rfl⟩
    · exact Or.inr (Or.inl ⟨n, h1, Or.inl rfl⟩)
  next ad heq =>
    split at h
    next e1 heq2 =>
      simp only [Except.error.injEq, Prod.mk.injEq] at h
      obtain ⟨he, hr⟩ := h
      subst he
      subst hr
      rcases parseArgsVal_error heq2 with h1 | ⟨n, h1⟩
      · exact Or.inl ⟨h1, rfl⟩
      · exact Or.inr (Or.inl ⟨n, h1, Or.inl rfl⟩)
    next cv heq2 =>
      split at h
      next e1 heq3 =>
        simp only [Except.error.injEq, Prod.mk.injEq] at h
        obtain ⟨he, hr⟩ := h
        subst he
        subst hr
        exact Or.inl ⟨parseArgsRaw_error heq3, rfl⟩
      next dr heq3 =>
        split at h
        · split at h
          next e2 heq4 =>
            rw [setReg_ovfl] at heq4
            simp at heq4
          next r1 heq4 =>
            rw [setReg_ovfl] at heq4
            simp only [Except.ok.injEq] at heq4
            subst heq4
            split at h
            next e2 heq5 =>
              simp only [Except.error.injEq, Prod.mk.injEq] at h
              obtain ⟨he, hr⟩ := h
              subst he
              subst hr
              have h5 := setRegisterValue_error heq5
              exact Or.inr (Or.inl ⟨dr, h5, Or.inr (Or.inl rfl)⟩)
            next r2 heq5 =>
              simp at h
        · split at h
          next e2 heq4 =>
            simp only [Except.error.injEq, Prod.mk.injEq] at h
            obtain ⟨he, hr⟩ := h
            subst he
            subst hr
            exact Or.inr (Or.inl ⟨dr, setRegisterValue_error heq4, Or.inl rfl⟩)
          next r2 heq4 =>
            simp at h

lemma sub_error_shape {c : CPU} {arg : String} {e : CpuError} {r : RegFile}
    (h : CPU.sub c arg = Except.error (e, r)) : handlerErrShape c e r := by
  simp only [CPU.sub] at h
  split at h
  next e1 heq =>
    simp only [Except.error.injEq, Prod.mk.injEq] at h
    obtain ⟨he, hr⟩ := h
    subst he
    subst hr
    rcases parseArgsVal_error heq with h1 | ⟨n, h1⟩
    · exact Or.inl ⟨h1, rfl⟩
    · exact Or.inr (Or.inl ⟨n, h1, Or.inl rfl⟩)
  next sd heq =>
    split at h
    next e1 heq2 =>
      simp only [Except.error.injEq, Prod.mk.injEq] at h
      obtain ⟨he, hr⟩ := h
      subst he
      subst hr
      rcases parseArgsVal_error heq2 with h1 | ⟨n, h1⟩
      · exact Or.inl ⟨h1, rfl⟩
      · exact Or.inr (Or.inl ⟨n, h1, Or.inl rfl⟩)
    next cv heq2 =>
      split at h
      next e1 heq3 =>
        simp only [Except.error.injEq, Prod.mk.injEq] at h
        obtain ⟨he, hr⟩ := h
        subst he
        subst hr
        exact Or.inl ⟨parseArgsRaw_error heq3, rfl⟩
      next dr heq3 =>
        split at h
        · split at h
          next e2 heq4 =>
            rw [setReg_udfl] at heq4
            simp at heq4
          next r1 heq4 =>
            rw [setReg_udfl] at heq4
            simp only [Except.ok.injEq] at heq4
            subst heq4
            split at h
            next e2 heq5 =>
              simp only [Except.error.injEq, Prod.mk.injEq] at h
              obtain ⟨he, hr⟩ := h
              subst he
              subst hr
              have h5 := setRegisterValue_error heq5
              exact Or.inr (Or.inl ⟨dr, h5, Or.inr (Or.inr rfl)⟩)
            next r2 heq5 =>
              simp at h
        · split at h
          next e2 heq4 =>
            simp only [Except.error.injEq, Prod.mk.injEq] at h
            obtain ⟨he, hr⟩ := h
            subst he
            subst hr
            exact Or.inr (Or.inl ⟨dr, setRegisterValue_error heq4, Or.inl rfl⟩)
          next r2 heq4 =>
            simp at h

lemma mov_error_shape {c : CPU} {arg : String} {e : CpuError} {r : RegFile}
    (h : CPU.mov c arg = Except.error (e, r)) : handlerErrShape c e r := by
  simp only [CPU.mov] at h
  split at h
  next e1 heq =>
    simp only [Except.error.injEq, Prod.mk.injEq] at h
    obtain ⟨he, hr⟩ := h
    subst he
    subst hr
    exact Or.inl ⟨parseArgsRaw_error heq, rfl⟩
  next dr heq =>
    split at h
    next e1 heq2 =>
      simp only [Except.error.injEq, Prod.mk.injEq] at h
      obtain ⟨he, hr⟩ := h
      subst he
      subst hr
      rcases parseArgsVal_error heq2 with h1 | ⟨n, h1⟩
      · exact Or.inl ⟨h1, rfl⟩
      · exact Or.inr (Or.inl ⟨n, h1, Or.inl rfl⟩)
    next dv heq2 =>
      split at h
      next e2 heq3 =>
        simp only [Except.error.injEq, Prod.mk.injEq] at h
        obtain ⟨he, hr⟩ := h
        subst he
        subst hr
        exact Or.inr (Or.inl ⟨dr, setRegisterValue_error heq3, Or.inl rfl⟩)
      next r2 heq3 =>
        simp at h

lemma jmp_error_shape {c : CPU} {arg : String} {e : CpuError} {r : RegFile}
    (h : CPU.jmp c arg = Except.error (e, r)) : handlerErrShape c e r := by
  simp only [CPU.jmp] at h
  split at h
  next e1 heq =>
    simp only [Except.error.injEq, Prod.mk.injEq] at h
    obtain ⟨he, hr⟩ := h
    subst he
    subst hr
    rcases parseArgsVal_error heq with h1 | ⟨n, h1⟩
    · exact Or.inl ⟨h1, rfl⟩
    · exact Or.inr (Or.inl ⟨n, h1, Or.inl rfl⟩)
  next jd heq =>
    split at h
    · simp only [Except.error.injEq, Prod.mk.injEq] at h
      obtain ⟨he, hr⟩ := h
      subst he
      subst hr
      exact Or.inr (Or.inr (Or.inl ⟨jd, rfl, rfl⟩))
    · simp at h

lemma cmp_error_shape {c : CPU} {arg : String} {e : CpuError} {r : RegFile}
    (h : CPU.cmp c arg = Except.error (e, r)) : handlerErrShape c e r := by
  simp only [CPU.cmp] at h
  split at h
  next e1 heq =>
    simp only [Except.error.injEq, Prod.mk.injEq] at h
    obtain ⟨he, hr⟩ := h
    subst he
    subst hr
    rcases parseArgsVal_error heq with h1 | ⟨n, h1⟩
    · exact Or.inl ⟨h1, rfl⟩
    · exact Or.inr (Or.inl ⟨n, h1, Or.inl rfl⟩)
  next fv heq =>
    split at h
    next e1 heq2 =>
      simp only [Except.error.injEq, Prod.mk.injEq] at h
      obtain ⟨he, hr⟩ := h
      subst he
      subst hr
      rcases parseArgsVal_error heq2 with h1 | ⟨n, h1⟩
      · exact Or.inl ⟨h1, rfl⟩
      · exact Or.inr (Or.inl ⟨n, h1, Or.inl rfl⟩)
    next sv heq2 =>
      split at h
      next e2 heq3 =>
        rw [setReg_s] at heq3
        simp at heq3
      next r2 heq3 =>
        simp at h

lemma jnz_error_shape {c : CPU} {arg : String} {e : CpuError} {r : RegFile}
    (h : CPU.jnz c arg = Except.error (e, r)) : handlerErrShape c e r := by
  simp only [CPU.jnz, getReg_s] at h
  split at h
  · simp at h
  · exact jmp_error_shape h

lemma jze_error_shape {c : CPU} {arg : String} {e : CpuError} {r : RegFile}
    (h : CPU.jze c arg = Except.error (e, r)) : handlerErrShape c e r := by
  simp only [CPU.jze, getReg_s] at h
  split at h
  · simp at h
  · exact jmp_error_shape h

lemma dispatch_error_shape {c : CPU} {inst args : String} {e : CpuError} {r : RegFile}
    (hkey : instHasKey inst = true)
    (h : CPU.dispatch c inst args = Except.error (e, r)) : handlerErrShape c e r := by
  simp only [instHasKey, Bool.or_eq_true, beq_iff_eq] at hkey
  unfold CPU.dispatch at h
  rcases hkey with ((((((((h1 | h1) | h1) | h1) | h1) | h1) | h1) | h1) | h1) <;> subst h1
  · rw [if_pos rfl] at h
    exact add_error_shape h
  · rw [if_neg (by decide), if_pos rfl] at h
    exact sub_error_shape h
  · rw [if_neg (by decide), if_neg (by decide), if_pos rfl] at h
    exact mov_error_shape h
  · rw [if_neg (by decide), if_neg (by decide), if_neg (by decide), if_pos rfl] at h
    exact jmp_error_shape h
  · rw [if_neg (by decide), if_neg (by decide), if_neg (by decide), if_neg (by decide),
      if_pos rfl] at h
    exact cmp_error_shape h
  · rw [if_neg (by decide), if_neg (by decide), if_neg (by decide), if_neg (by decide),
      if_neg (by decide), if_neg (by decide), if_neg (by decide), if_pos rfl] at h
    simp only [Except.error.injEq, Prod.mk.injEq] at h
    obtain ⟨he, hr⟩ := h
    subst he
    subst hr
    exact Or.inr (Or.inr (Or.inr ⟨_, rfl, rfl⟩))
  · rw [if_neg (by decide), if_neg (by decide), if_neg (by decide), if_neg (by decide),
      if_neg (by decide), if_neg (by decide), if_neg (by decide), if_neg (by decide),
      if_pos rfl] at h
    simp only [Except.error.injEq, Prod.mk.injEq] at h
    obtain ⟨he, hr⟩ := h
    subst he
    subst hr
    exact Or.inr (Or.inr (Or.inr ⟨_, rfl, rfl⟩))
  · rw [if_neg (by decide), if_neg (by decide), if_neg (by decide), if_neg (by decide),
      if_neg (by decide), if_pos rfl] at h
    exact jnz_error_shape h
  · rw [if_neg (by decide), if_neg (by decide), if_neg (by decide), if_neg (by decide),
      if_neg (by decide), if_neg (by decide), if_pos rfl] at h
    exact jze_error_shape h

/-! ### Success-path plumbing -/

lemma dispatch_add (c : CPU) (args : String) : CPU.dispatch c "add" args = CPU.add c args := rfl
lemma dispatch_sub (c : CPU) (args : String) : CPU.dispatch c "sub" args = CPU.sub c args := rfl
lemma dispatch_mov (c : CPU) (args : String) : CPU.dispatch c "mov" args = CPU.mov c args := rfl
lemma dispatch_jmp (c : CPU) (args : String) : CPU.dispatch c "jmp" args = CPU.jmp c args := rfl
lemma dispatch_cmp (c : CPU) (args : String) : CPU.dispatch c "cmp" args = CPU.cmp c args := rfl
lemma dispatch_jnz (c : CPU) (args : String) : CPU.dispatch c "jnz" args = CPU.jnz c args := rfl
lemma dispatch_jze (c : CPU) (args : String) : CPU.dispatch c "jze" args = CPU.jze c args := rfl

/-- One fetch-decode-execute step of `cpu.exec` on a line whose space-split is
a well-formed `[opcode, operand]` pair: the handler runs, then `pc` is
incremented unconditionally. -/
lemma exec_eq_of_split (c : CPU) (line op arg : String)
    (hsplit : jsSplit line ' ' = [op, arg])
    (hkey : instHasKey op = true)
    (htrim : jsTrim arg = arg) (hne : arg ≠ "") :
    CPU.exec c line
      = match CPU.dispatch c op arg with
        | Except.error p => Except.error p
        | Except.ok c' =>
          Except.ok { c' with regs := { c'.regs with pc := jadd c'.regs.pc (some 1) } } := by
  simp only [CPU.exec, hsplit, List.getD_cons_zero, List.getD_cons_succ, htrim, hkey]
  rw [if_neg (by simp), if_neg (by simp), if_neg hne]

/-! ### Claims -/

/-- C1 (refuting the stated behaviour, documenting the code bug): loading the
empty source — or an all-blank one — does NOT fail with an empty-program
error.  `load` succeeds with an empty instruction list and `init` runs the
main loop, which halts at once; the `rb.length < 1` guard protecting the
`'No assembly source received'` throw can never fire because a JavaScript
split always yields at least one element (last conjunct). -/
theorem C1_empty_source_executes_cleanly :
    CPU.load CPU.initial "" = Except.ok CPU.initial ∧
    CPU.init CPU.initial "" 1 = RunResult.halted CPU.initial ∧
    CPU.init CPU.initial "\n   \n\t\n" 1 = RunResult.halted CPU.initial ∧
    (∀ asm : String, 1 ≤ (jsSplit asm '\n').length) := by
  refine ⟨by rfl, by decide, by decide, fun asm => jsSplit_length_pos asm '\n'⟩

/-- C10: invoking the load entry point a second time appends the new
program's non-blank trimmed lines after the previously loaded instruction
sequence (reset reinitializes the registers but never clears `cpu.inst`),
`pEnd` counts the lines of both programs, and the second run starts with the
reset registers, i.e. at `pc = 0` inside the old program. -/
theorem C10_second_load_appends (c : CPU) (asm1 asm2 : String) :
    ∃ c1 c2, CPU.load c asm1 = Except.ok c1 ∧ CPU.load c1 asm2 = Except.ok c2 ∧
      c1.inst = c.inst ++ parsedLines asm1 ∧
      c2.inst = c1.inst ++ parsedLines asm2 ∧
      c2.pEnd = c1.inst.length + (parsedLines asm2).length ∧
      c2.regs = resetRegisters ∧
      c2.regs.pc = some 0 ∧
      (∀ fuel, CPU.init c1 asm2 fuel = CPU.main fuel c2) := by
  refine ⟨_, _, load_eq c asm1, load_eq _ asm2, rfl, rfl, ?_, rfl, rfl, ?_⟩
  · simp [Nat.add_assoc]
  · intro fuel
    simp [CPU.init, load_eq]

/-- C9: `cmp a,b` writes `s := 1` exactly when the two resolved values are
(strictly) equal and `0` otherwise, and changes nothing but the `s`
register — the result state is the input state with only `s` replaced. -/
theorem C9_cmp_sets_s_only (c : CPU) (arg : String) (fv sv : JsNum)
    (h1 : parseArgsVal c.regs arg 0 2 = Except.ok fv)
    (h2 : parseArgsVal c.regs arg 1 2 = Except.ok sv) :
    CPU.cmp c arg
      = Except.ok { c with regs := { c.regs with s := some (if jeq fv sv then 1 else 0) } } ∧
    (∀ a b : Int, fv = some a → sv = some b → (jeq fv sv = true ↔ a = b)) := by
  constructor
  · simp only [CPU.cmp, h1, h2, setReg_s]
  · intro a b ha hb
    subst ha
    subst hb
    simp [jeq]

/-- Witness for C9 at a concrete comparison of equal immediates. -/
theorem C9_cmp_sets_s_only_witness :
    CPU.cmp CPU.initial "#3,#3"
      = Except.ok { CPU.initial with regs := { resetRegisters with s := some 1 } } := by
  have h := (C9_cmp_sets_s_only CPU.initial "#3,#3" (some 3) (some 3) (by rfl) (by rfl)).1
  exact h.trans (by rfl)

/-- C5: `jnz` behaves exactly as `jmp` when the `s` register is nonzero and
`jze` behaves exactly as `jmp` when `s` is zero; in the respective
non-branching case each handler returns the state unchanged, and at the
`exec` level the only effect of a non-branching `jnz`/`jze` line is the
loop's automatic increment of `pc` by exactly one. -/
theorem C5_jnz_jze_branch_on_s (c : CPU) (arg : String) :
    (c.regs.s ≠ some 0 → CPU.jnz c arg = CPU.jmp c arg) ∧
    (c.regs.s = some 0 → CPU.jnz c arg = Except.ok c) ∧
    (c.regs.s = some 0 → CPU.jze c arg = CPU.jmp c arg) ∧
    (c.regs.s ≠ some 0 → CPU.jze c arg = Except.ok c) ∧
    (∀ line op, ((op = "jnz" ∧ c.regs.s = some 0) ∨ (op = "jze" ∧ c.regs.s ≠ some 0)) →
      jsSplit line ' ' = [op, arg] → jsTrim arg = arg → arg ≠ "" →
      CPU.exec c line
        = Except.ok { c with regs := { c.regs with pc := jadd c.regs.pc (some 1) } }) := by
  have hnzZ : c.regs.s = some 0 → CPU.jnz c arg = Except.ok c := by
    intro hz
    simp only [CPU.jnz, getReg_s]
    rw [if_pos ((jeq_some_iff _ _).mpr hz)]
  have hzeN : c.regs.s ≠ some 0 → CPU.jze c arg = Except.ok c := by
    intro hne
    have hf : jeq c.regs.s (some 0) = false := by
      cases hj : jeq c.regs.s (some 0)
      · rfl
      · exact absurd ((jeq_some_iff _ _).mp hj) hne
    simp only [CPU.jze, getReg_s]
    rw [if_pos hf]
  refine ⟨?_, hnzZ, ?_, hzeN, ?_⟩
  · intro hne
    have hf : jeq c.regs.s (some 0) = false := by
      cases hj : jeq c.regs.s (some 0)
      · rfl
      · exact absurd ((jeq_some_iff _ _).mp hj) hne
    simp only [CPU.jnz, getReg_s]
    rw [if_neg (by simp [hf])]
  · intro hz
    have ht : jeq c.regs.s (some 0) = true := (jeq_some_iff _ _).mpr hz
    simp only [CPU.jze, getReg_s]
    rw [if_neg (by simp [ht])]
  · intro line op hop hsplit htrim hne
    rcases hop with ⟨hop, hs⟩ | ⟨hop, hs⟩ <;> subst hop
    · rw [exec_eq_of_split c line "jnz" arg hsplit (by decide) htrim hne, dispatch_jnz,
        hnzZ hs]
    · rw [exec_eq_of_split c line "jze" arg hsplit (by decide) htrim hne, dispatch_jze,
        hzeN hs]

/-- Witness for C5: a non-branching `jnz` line (with `s = 0`) only advances
`pc` by one, and with the same state `jze` branches exactly as `jmp`. -/
theorem C5_jnz_jze_branch_on_s_witness :
    CPU.exec CPU.initial "jnz #0"
      = Except.ok { CPU.initial with
          regs := { CPU.initial.regs with pc := jadd CPU.initial.regs.pc (some 1) } } ∧
    CPU.jze CPU.initial "#0" = CPU.jmp CPU.initial "#0" := by
  have h := C5_jnz_jze_branch_on_s CPU.initial "#0"
  exact ⟨h.2.2.2.2 "jnz #0" "jnz" (Or.inl ⟨rfl, rfl⟩) (by rfl) (by rfl) (by decide),
    h.2.2.1 rfl⟩

/-- C4: a resolved `jmp` target `T` outside `[0, pEnd]` fails with the
out-of-bounds error; an in-range target sets `pc = T - 1`, so after the
loop's unconditional increment the next instruction index is exactly `T`;
and a jump to `T = pEnd` makes the loop halt cleanly on its next check,
executing nothing further and raising no error. -/
theorem C4_jmp_bounds_and_loop_convention (c : CPU) (arg : String) (T : Int)
    (hres : parseArgsVal c.regs arg 0 1 = Except.ok (some T)) :
    ((T < 0 ∨ (c.pEnd : Int) < T) →
      CPU.jmp c arg = Except.error (CpuError.outOfBoundsJump (some T), c.regs)) ∧
    ((0 ≤ T ∧ T ≤ (c.pEnd : Int)) →
      CPU.jmp c arg = Except.ok { c with regs := { c.regs with pc := some (T - 1) } }) ∧
    (∀ line, T = (c.pEnd : Int) → jsSplit line ' ' = ["jmp", arg] → jsTrim arg = arg →
      arg ≠ "" →
      CPU.exec c line = Except.ok { c with regs := { c.regs with pc := some T } } ∧
      (∀ fuel, CPU.main (fuel + 1) { c with regs := { c.regs with pc := some T } }
        = RunResult.halted { c with regs := { c.regs with pc := some T } })) := by
  have hin : (0 ≤ T ∧ T ≤ (c.pEnd : Int)) →
      CPU.jmp c arg = Except.ok { c with regs := { c.regs with pc := some (T - 1) } } := by
    intro hT
    simp only [CPU.jmp, hres]
    rw [if_neg (by simp [jlt, jgt]; omega)]
    rfl
  refine ⟨?_, hin, ?_⟩
  · intro hT
    simp only [CPU.jmp, hres]
    rw [if_pos (by simp [jlt, jgt]; omega)]
  · intro line hT hsplit htrim hne
    constructor
    · rw [exec_eq_of_split c line "jmp" arg hsplit (by decide) htrim hne, dispatch_jmp,
        hin ⟨by omega, by omega⟩]
      have harith : T - 1 + 1 = T := by omega
      simp [jadd, harith]
    · intro fuel
      subst hT
      simp only [CPU.main]
      rw [if_neg (by simp [jlt])]

/-- Witness for C4: executing `jmp #1` in a one-line program lands `pc` on
`pEnd = 1` and the next loop check halts cleanly. -/
theorem C4_jmp_bounds_and_loop_convention_witness :
    CPU.exec cpuC4 "jmp #1" = Except.ok { cpuC4 with regs := { cpuC4.regs with pc := some 1 } } ∧
    CPU.main 1 { cpuC4 with regs := { cpuC4.regs with pc := some 1 } }
      = RunResult.halted { cpuC4 with regs := { cpuC4.regs with pc := some 1 } } := by
  have h := (C4_jmp_bounds_and_loop_convention cpuC4 "#1" 1 (by rfl)).2.2 "jmp #1"
    (by decide) (by rfl) (by rfl) (by decide)
  exact ⟨h.1, h.2 0⟩

/-- Counterexample to C2 as stated: `add #300,ovfl` resolves source value
`a = 300` against destination `ovfl` currently holding `b = 0`, so
`a + b ≥ 256`; the claim then demands final `ovfl = 1`, but the clamped
result 255 is stored into the destination — which IS `ovfl` — after the flag
write, leaving `ovfl = 255 ≠ 1`. -/
theorem C2_counterexample :
    CPU.add CPU.initial "#300,ovfl"
      = Except.ok { CPU.initial with regs := { resetRegisters with ovfl := some 255 } } ∧
    (some (255 : Int) : JsNum) ≠ some 1 := by
  exact ⟨by rfl, by decide⟩

/-- C2 (amended): for a resolved source value `a` and a destination register
`dr` other than `ovfl` itself currently resolving to `b`, `add` stores
`regSize - 1 = 255` and sets `ovfl = 1` when `a + b ≥ 256`, and stores
`a + b` leaving `ovfl` unchanged when `a + b < 256`.  (When `dr = "ovfl"`,
the stored result overwrites the flag — see the counterexample.) -/
theorem C2_add_clamps_and_flags (c : CPU) (arg dr : String) (a b : Int)
    (h1 : parseArgsVal c.regs arg 0 2 = Except.ok (some a))
    (h2 : parseArgsVal c.regs arg 1 2 = Except.ok (some b))
    (h3 : parseArgsRaw c.regs.pc arg 1 2 = Except.ok dr)
    (h4 : validRegister dr = true) (h5 : dr ≠ "ovfl") (h6 : c.regSize = 256)
    (_ha : 0 ≤ a) (_hb : 0 ≤ b) :
    (256 ≤ a + b →
      ∃ c', CPU.add c arg = Except.ok c' ∧
        RegFile.get? c'.regs dr = some (some 255) ∧ c'.regs.ovfl = some 1) ∧
    (a + b < 256 →
      ∃ c', CPU.add c arg = Except.ok c' ∧
        RegFile.get? c'.regs dr = some (some (a + b)) ∧ c'.regs.ovfl = c.regs.ovfl) := by
  constructor
  · intro hsum
    obtain ⟨r2, hset, hget, hframe⟩ :=
      setRegisterValue_spec { c.regs with ovfl := some 1 } dr (some (c.regSize - 1)) h4
    refine ⟨{ c with regs := r2 }, ?_, ?_, ?_⟩
    · simp only [CPU.add, h1, h2, h3, setReg_ovfl]
      rw [if_pos (by simp [jadd, jge, h6]; omega), hset]
    · rw [hget, h6]
      norm_num
    · have hfr := hframe "ovfl" (Ne.symm h5)
      rw [get_ovfl, get_ovfl] at hfr
      simpa using hfr
  · intro hsum
    obtain ⟨r2, hset, hget, hframe⟩ :=
      setRegisterValue_spec c.regs dr (jadd (some a) (some b)) h4
    refine ⟨{ c with regs := r2 }, ?_, ?_, ?_⟩
    · simp only [CPU.add, h1, h2, h3]
      rw [if_neg (by simp [jadd, jge, h6]; omega), hset]
    · rw [hget]
      simp [jadd]
    · have hfr := hframe "ovfl" (Ne.symm h5)
      rw [get_ovfl, get_ovfl] at hfr
      simpa using hfr

/-- Witness for C2: `add #200,r0` with `r0 = 100` overflows — the destination
clamps to 255 and `ovfl` is raised. -/
theorem C2_add_clamps_and_flags_witness :
    ∃ c', CPU.add cpuC2 "#200,r0" = Except.ok c' ∧
      RegFile.get? c'.regs "r0" = some (some 255) ∧ c'.regs.ovfl = some 1 :=
  (C2_add_clamps_and_flags cpuC2 "#200,r0" "r0" 200 100 (by rfl) (by rfl) (by rfl)
    (by decide) (by decide) (by rfl) (by decide) (by decide)).1 (by decide)

/-- Counterexample to C3 as stated: `sub #5,udfl` resolves subtract value
`a = 5` against destination `udfl` currently holding `b = 0`, so
`b - a < 0`; the claim then demands final `udfl = 1`, but the clamped result
0 is stored into the destination — which IS `udfl` — after the flag write,
leaving `udfl = 0 ≠ 1` (i.e. the whole state is back to the initial one). -/
theorem C3_counterexample :
    CPU.sub CPU.initial "#5,udfl" = Except.ok CPU.initial ∧
    CPU.initial.regs.udfl ≠ some 1 := by
  exact ⟨by rfl, by decide⟩

/-- C3 (amended): for a resolved subtract value `a` and a destination
register `dr` other than `udfl` itself currently resolving to `b`, `sub`
stores `0` and sets `udfl = 1` when `b - a < 0`, and stores `b - a` leaving
`udfl` unchanged when `b - a ≥ 0`.  (When `dr = "udfl"`, the stored result
overwrites the flag — see the counterexample.) -/
theorem C3_sub_clamps_and_flags (c : CPU) (arg dr : String) (a b : Int)
    (h1 : parseArgsVal c.regs arg 0 2 = Except.ok (some a))
    (h2 : parseArgsVal c.regs arg 1 2 = Except.ok (some b))
    (h3 : parseArgsRaw c.regs.pc arg 1 2 = Except.ok dr)
    (h4 : validRegister dr = true) (h5 : dr ≠ "udfl")
    (_ha : 0 ≤ a) (_hb : 0 ≤ b) :
    (b - a < 0 →
      ∃ c', CPU.sub c arg = Except.ok c' ∧
        RegFile.get? c'.regs dr = some (some 0) ∧ c'.regs.udfl = some 1) ∧
    (0 ≤ b - a →
      ∃ c', CPU.sub c arg = Except.ok c' ∧
        RegFile.get? c'.regs dr = some (some (b - a)) ∧ c'.regs.udfl = c.regs.udfl) := by
  constructor
  · intro hdiff
    obtain ⟨r2, hset, hget, hframe⟩ :=
      setRegisterValue_spec { c.regs with udfl := some 1 } dr (some 0) h4
    refine ⟨{ c with regs := r2 }, ?_, ?_, ?_⟩
    · simp only [CPU.sub, h1, h2, h3, setReg_udfl]
      rw [if_pos (by simp [jsub, jlt]; omega), hset]
    · exact hget
    · have hfr := hframe "udfl" (Ne.symm h5)
      rw [get_udfl, get_udfl] at hfr
      simpa using hfr
  · intro hdiff
    obtain ⟨r2, hset, hget, hframe⟩ :=
      setRegisterValue_spec c.regs dr (jsub (some b) (some a)) h4
    refine ⟨{ c with regs := r2 }, ?_, ?_, ?_⟩
    · simp only [CPU.sub, h1, h2, h3]
      rw [if_neg (by simp [jsub, jlt]; omega), hset]
    · rw [hget]
      simp [jsub]
    · have hfr := hframe "udfl" (Ne.symm h5)
      rw [get_udfl, get_udfl] at hfr
      simpa using hfr

/-- Witness for C3: `sub #50,r1` with `r1 = 10` underflows — the destination
clamps to 0 and `udfl` is raised. -/
theorem C3_sub_clamps_and_flags_witness :
    ∃ c', CPU.sub cpuC3 "#50,r1" = Except.ok c' ∧
      RegFile.get? c'.regs "r1" = some (some 0) ∧ c'.regs.udfl = some 1 :=
  (C3_sub_clamps_and_flags cpuC3 "#50,r1" "r1" 50 10 (by rfl) (by rfl) (by rfl)
    (by decide) (by decide) (by decide) (by decide)).1 (by decide)

/-- Counterexample to C8 as stated: `ovfl` is itself a valid destination
register, and `mov ovfl,#7` does modify `ovfl`. -/
theorem C8_counterexample :
    CPU.mov CPU.initial "ovfl,#7"
      = Except.ok { CPU.initial with regs := { resetRegisters with ovfl := some 7 } } ∧
    (some (7 : Int) : JsNum) ≠ resetRegisters.ovfl := by
  exact ⟨by rfl, by decide⟩

/-- C8 (amended): `mov` stores the resolved value into its destination
verbatim — no clamping, so values above `regSize - 1` survive — and changes
no register other than the destination; in particular `ovfl`/`udfl` are
untouched whenever they are not themselves the destination. -/
theorem C8_mov_stores_verbatim (c : CPU) (arg dr : String) (dv : JsNum)
    (h1 : parseArgsRaw c.regs.pc arg 0 2 = Except.ok dr)
    (h2 : parseArgsVal c.regs arg 1 2 = Except.ok dv)
    (h3 : validRegister dr = true) :
    ∃ c', CPU.mov c arg = Except.ok c' ∧
      RegFile.get? c'.regs dr = some dv ∧
      (∀ n, n ≠ dr → RegFile.get? c'.regs n = RegFile.get? c.regs n) ∧
      c'.inst = c.inst ∧ c'.pEnd = c.pEnd ∧ c'.regSize = c.regSize := by
  obtain ⟨r2, hset, hget, hframe⟩ := setRegisterValue_spec c.regs dr dv h3
  refine ⟨{ c with regs := r2 }, ?_, hget, hframe, rfl, rfl, rfl⟩
  simp only [CPU.mov, h1, h2]
  rw [hset]

/-- Witness for C8: `mov r0,#300` stores the out-of-width immediate 300
unclamped and leaves every other register (including the flags) unchanged. -/
theorem C8_mov_stores_verbatim_witness :
    ∃ c', CPU.mov CPU.initial "r0,#300" = Except.ok c' ∧
      RegFile.get? c'.regs "r0" = some (some 300) ∧
      (∀ n, n ≠ "r0" → RegFile.get? c'.regs n = RegFile.get? CPU.initial.regs n) ∧
      c'.inst = CPU.initial.inst ∧ c'.pEnd = CPU.initial.pEnd ∧
      c'.regSize = CPU.initial.regSize :=
  C8_mov_stores_verbatim CPU.initial "r0,#300" "r0" (some 300) (by rfl) (by rfl) (by decide)

/-- Counterexample to C6 as stated: `add #300,#5` fails with an
unknown-register error (destination token `#5` is not a register name), and
the error does carry the current `pc`, but the register bank is NOT left as
it was before the instruction began — the overflow clamp already set
`ovfl = 1` before the destination name was validated. -/
theorem C6_counterexample :
    CPU.exec CPU.initial "add #300,#5"
      = Except.error (CpuError.unknownRegister "#5" (some 0),
          { resetRegisters with ovfl := some 1 }) ∧
    ({ resetRegisters with ovfl := some 1 } : RegFile) ≠ CPU.initial.regs := by
  exact ⟨by rfl, by decide⟩

/-- C6 (amended): an `UnknownOpcodeError` escaping `exec` carries the current
`pc` and leaves the register bank untouched; an `UnknownRegisterError`
escaping `exec` carries the current `pc` and leaves the bank as it was except
that `add`/`sub` may already have raised the `ovfl`/`udfl` flag before the
destination-name validation failed — no operand register is ever partially
written, since `setRegisterValue` validates before writing. -/
theorem C6_error_carries_pc_and_state (c : CPU) (line : String) (e : CpuError) (r : RegFile)
    (h : CPU.exec c line = Except.error (e, r)) :
    (∀ inst p, e = CpuError.unknownOpcode inst p → p = c.regs.pc ∧ r = c.regs) ∧
    (∀ n p, e = CpuError.unknownRegister n p → p = c.regs.pc ∧
      (r = c.regs ∨ r = { c.regs with ovfl := some 1 } ∨ r = { c.regs with udfl := some 1 })) := by
  simp only [CPU.exec] at h
  split at h
  next hlen =>
    simp only [Except.error.injEq, Prod.mk.injEq] at h
    obtain ⟨he, hr⟩ := h
    subst he
    subst hr
    exact ⟨fun inst p hh => by simp at hh, fun n p hh => by simp at hh⟩
  next hlen =>
    split at h
    next hkeyF =>
      simp only [Except.error.injEq, Prod.mk.injEq] at h
      obtain ⟨he, hr⟩ := h
      subst he
      subst hr
      constructor
      · intro inst p hh
        simp only [CpuError.unknownOpcode.injEq] at hh
        exact ⟨hh.2.symm, rfl⟩
      · intro n p hh
        simp at hh
    next hkeyT =>
      split at h
      next hargT =>
        simp only [Except.error.injEq, Prod.mk.injEq] at h
        obtain ⟨he, hr⟩ := h
        subst he
        subst hr
        exact ⟨fun inst p hh => by simp at hh, fun n p hh => by simp at hh⟩
      next hargF =>
        have hkey : instHasKey ((jsSplit line ' ').getD 0 "") = true := by
          revert hkeyT
          cases instHasKey ((jsSplit line ' ').getD 0 "") <;> simp
        split at h
        next p' heq =>
          simp only [Except.error.injEq] at h
          subst h
          have hs := dispatch_error_shape hkey heq
          constructor
          · intro inst p hh
            rcases hs with ⟨he, hr⟩ | ⟨n', he, hr⟩ | ⟨t, he, hr⟩ | ⟨w, he, hr⟩ <;>
              subst he <;> simp at hh
          · intro n p hh
            rcases hs with ⟨he, hr⟩ | ⟨n', he, hr⟩ | ⟨t, he, hr⟩ | ⟨w, he, hr⟩ <;> subst he
            · simp at hh
            · simp only [CpuError.unknownRegister.injEq] at hh
              exact ⟨hh.2.symm, hr⟩
            · simp at hh
            · simp at hh
        next c' heq =>
          simp at h

/-- Witness for C6 at a concrete unknown-opcode line: the error cites the
current `pc` (line index 0) and the bank is unchanged. -/
theorem C6_error_carries_pc_and_state_witness :
    (some (0 : Int) : JsNum) = CPU.initial.regs.pc ∧ resetRegisters = CPU.initial.regs :=
  (C6_error_carries_pc_and_state CPU.initial "xyz #1,r0"
    (CpuError.unknownOpcode "xyz" (some 0)) resetRegisters (by rfl)).1 "xyz" (some 0) rfl

/-- Counterexample to C7 as stated: the fetched line `mov  r0,#1` (two spaces
after the opcode) contains a space and its operand text after that first
space trims to the nonempty `r0,#1`, yet `exec` fails with a missing-operand
error — `line.split(" ")` takes only the text between the first and second
space, which is empty here. -/
theorem C7_counterexample :
    ¬ ((∃ e r, CPU.exec CPU.initial "mov  r0,#1" = Except.error (e, r) ∧
          CpuError.missingOperandKind e = true) ↔
        ((String.data "mov  r0,#1").contains ' ' = false ∨
          jsTrim (specOperandText "mov  r0,#1") = "")) := by
  intro hiff
  have hl : ∃ e r, CPU.exec CPU.initial "mov  r0,#1" = Except.error (e, r) ∧
      CpuError.missingOperandKind e = true :=
    ⟨CpuError.noArguments "mov" (some 0), resetRegisters, by rfl, rfl⟩
  rcases hiff.mp hl with hr | hr
  · exact absurd hr (by decide)
  · exact absurd hr (by decide)

/-- C7 (amended): `exec` splits the line on single spaces and takes only the
token between the first and second space as operand text.  It fails with a
missing-operand-class error iff the line has no space at all, or the opcode
is a dispatch-table key and that token trims to empty; it fails with an
unknown-opcode error iff the line has a space and the opcode is not a
dispatch-table key (the opcode lookup happens before the operand-emptiness
check, and handlers never produce either error kind). -/
theorem C7_exec_error_classification (c : CPU) (line : String) :
    ((∃ e r, CPU.exec c line = Except.error (e, r) ∧ CpuError.missingOperandKind e = true) ↔
      ((jsSplit line ' ').length < 2 ∨
        (instHasKey ((jsSplit line ' ').getD 0 "") = true ∧
          jsTrim ((jsSplit line ' ').getD 1 "") = ""))) ∧
    ((∃ e r, CPU.exec c line = Except.error (e, r) ∧ CpuError.unknownOpcodeKind e = true) ↔
      (2 ≤ (jsSplit line ' ').length ∧
        instHasKey ((jsSplit line ' ').getD 0 "") = false)) := by
  by_cases h1 : (jsSplit line ' ').length < 2
  · have hex : CPU.exec c line = Except.error (CpuError.missingSpace c.regs.pc, c.regs) := by
      simp only [CPU.exec]
      rw [if_pos h1]
    constructor
    · constructor
      · intro _
        exact Or.inl h1
      · intro _
        exact ⟨_, _, hex, rfl⟩
    · constructor
      · rintro ⟨e, r, hh, hk⟩
        rw [hex] at hh
        simp only [Except.error.injEq, Prod.mk.injEq] at hh
        obtain ⟨he, -⟩ := hh
        subst he
        simp [CpuError.unknownOpcodeKind] at hk
      · rintro ⟨h2, -⟩
        omega
  · by_cases h2 : instHasKey ((jsSplit line ' ').getD 0 "") = true
    · by_cases h3 : jsTrim ((jsSplit line ' ').getD 1 "") = ""
      · have hex : CPU.exec c line
            = Except.error
                (CpuError.noArguments ((jsSplit line ' ').getD 0 "") c.regs.pc, c.regs) := by
          simp only [CPU.exec]
          rw [if_neg h1, if_neg (by rw [h2]; simp), if_pos h3]
        constructor
        · constructor
          · intro _
            exact Or.inr ⟨h2, h3⟩
          · intro _
            exact ⟨_, _, hex, rfl⟩
        · constructor
          · rintro ⟨e, r, hh, hk⟩
            rw [hex] at hh
            simp only [Except.error.injEq, Prod.mk.injEq] at hh
            obtain ⟨he, -⟩ := hh
            subst he
            simp [CpuError.unknownOpcodeKind] at hk
          · rintro ⟨-, hkf⟩
            rw [h2] at hkf
            cases hkf
      · have hstep : CPU.exec c line
            = match CPU.dispatch c ((jsSplit line ' ').getD 0 "")
                (jsTrim ((jsSplit line ' ').getD 1 "")) with
              | Except.error p => Except.error p
              | Except.ok c' =>
                Except.ok { c' with regs := { c'.regs with pc := jadd c'.regs.pc (some 1) } } := by
          simp only [CPU.exec]
          rw [if_neg h1, if_neg (by rw [h2]; simp), if_neg h3]
        have hR1 : ¬ ((jsSplit line ' ').length < 2 ∨
            (instHasKey ((jsSplit line ' ').getD 0 "") = true ∧
              jsTrim ((jsSplit line ' ').getD 1 "") = "")) := by
          rintro (hh | ⟨-, hh⟩)
          · exact h1 hh
          · exact h3 hh
        have hR2 : ¬ (2 ≤ (jsSplit line ' ').length ∧
            instHasKey ((jsSplit line ' ').getD 0 "") = false) := by
          rintro ⟨-, hh⟩
          rw [h2] at hh
          cases hh
        cases hdisp : CPU.dispatch c ((jsSplit line ' ').getD 0 "")
            (jsTrim ((jsSplit line ' ').getD 1 "")) with
        | error p =>
          obtain ⟨pe, pr⟩ := p
          have hs := dispatch_error_shape h2 hdisp
          have hex : CPU.exec c line = Except.error (pe, pr) := by
            rw [hstep, hdisp]
          have hkindM : CpuError.missingOperandKind pe = false := by
            rcases hs with ⟨he, -⟩ | ⟨n', he, -⟩ | ⟨t, he, -⟩ | ⟨w, he, -⟩ <;> subst he <;> rfl
          have hkindU : CpuError.unknownOpcodeKind pe = false := by
            rcases hs with ⟨he, -⟩ | ⟨n', he, -⟩ | ⟨t, he, -⟩ | ⟨w, he, -⟩ <;> subst he <;> rfl
          constructor
          · constructor
            · rintro ⟨e, r, hh, hk⟩
              rw [hex] at hh
              simp only [Except.error.injEq, Prod.mk.injEq] at hh
              obtain ⟨he, -⟩ := hh
              subst he
              rw [hkindM] at hk
              cases hk
            · intro hh
              exact absurd hh hR1
          · constructor
            · rintro ⟨e, r, hh, hk⟩
              rw [hex] at hh
              simp only [Except.error.injEq, Prod.mk.injEq] at hh
              obtain ⟨he, -⟩ := hh
              subst he
              rw [hkindU] at hk
              cases hk
            · intro hh
              exact absurd hh hR2
        | ok c' =>
          have hex : CPU.exec c line
              = Except.ok { c' with regs := { c'.regs with pc := jadd c'.regs.pc (some 1) } } := by
            rw [hstep, hdisp]
          constructor
          · constructor
            · rintro ⟨e, r, hh, -⟩
              rw [hex] at hh
              cases hh
            · intro hh
              exact absurd hh hR1
          · constructor
            · rintro ⟨e, r, hh, -⟩
              rw [hex] at hh
              cases hh
            · intro hh
              exact absurd hh hR2
    · have h2f : instHasKey ((jsSplit line ' ').getD 0 "") = false := by
        revert h2
        cases instHasKey ((jsSplit line ' ').getD 0 "") <;> simp
      have hex : CPU.exec c line
          = Except.error
              (CpuError.unknownOpcode ((jsSplit line ' ').getD 0 "") c.regs.pc, c.regs) := by
        simp only [CPU.exec]
        rw [if_neg h1, if_pos h2f]
      constructor
      · constructor
        · rintro ⟨e, r, hh, hk⟩
          rw [hex] at hh
          simp only [Except.error.injEq, Prod.mk.injEq] at hh
          obtain ⟨he, -⟩ := hh
          subst he
          simp [CpuError.missingOperandKind] at hk
        · rintro (hh | ⟨hh, -⟩)
          · exact absurd hh h1
          · rw [h2f] at hh
            cases hh
      · constructor
        · intro _
          exact ⟨by omega, h2f⟩
        · intro _
          exact ⟨_, _, hex, rfl⟩
